import Mathlib

/-!
Verification development for the `resources` host-telemetry collector.

The repository's counter readers (`src/utils/cpu.rs`, `src/utils/drive.rs`)
and the application page's selection / signal-dispatch logic
(`src/ui/pages/applications.rs`) are shallowly embedded below.

Modelling conventions:
* raw file contents and lines are `List Char`;
* the two fixed regexes (`PROC_STAT_REGEX`, `DRIVE_REGEX`) consist of a
  literal prefix followed by alternating `\x20*` / `[0-9]*` pieces over the
  disjoint character classes space and digit, so their leftmost-greedy match
  is captured exactly by "skip spaces, take the maximal digit run" steps,
  with every capture group participating (possibly as the empty string);
* `str::parse::<u64>` / `::<usize>` (64-bit target) on a captured digit run
  is `parseU64`: it fails on the empty capture and on values ≥ 2^64;
* additions and multiplications on parsed counters are modelled on `ℕ`
  (Rust u64 overflow panics in debug builds and is unreachable for the
  counter magnitudes the kernel exposes);
* fallible Rust functions returning `anyhow::Result` become `Except String`;
  a Rust panic (out-of-bounds slice index) is an explicit `panic` variant.
-/

namespace Resources

/-- Value of a run of decimal digit characters, most significant first. -/
def digitsToNat (s : List Char) : Nat :=
  s.foldl (fun acc c => acc * 10 + (c.toNat - 48)) 0

/-- Model of `str::parse::<u64>` (and `::<usize>` on a 64-bit target) as used
on regex captures and sysfs values: succeeds exactly on a non-empty all-digit
string whose value fits in 64 bits. -/
def parseU64 (s : List Char) : Option Nat :=
  if s = [] then none
  else if s.all Char.isDigit then
    if digitsToNat s < 2 ^ 64 then some (digitsToNat s) else none
  else none

/-- One `\x20*[0-9]*` step of the greedy regex match: skip spaces, then
capture the maximal (possibly empty) digit run; returns the capture and the
remaining input. -/
def nextField (s : List Char) : List Char × List Char :=
  let t := s.dropWhile (fun c => c = ' ')
  (t.takeWhile Char.isDigit, t.dropWhile Char.isDigit)

/-- Leftmost occurrence of the literal `cpu` required by `PROC_STAT_REGEX`
(`src/utils/cpu.rs:101`); returns the suffix after it, or `none` when the
line contains no `cpu` (the only way `.captures` can fail, since every other
regex piece matches the empty string). -/
def afterCpu : List Char → Option (List Char)
  | 'c' :: 'p' :: 'u' :: rest => some rest
  | _ :: rest => afterCpu rest
  | [] => none

/-- The ten named capture groups of `PROC_STAT_REGEX`, in group order. -/
structure CpuCaptures where
  user : List Char
  nice : List Char
  system : List Char
  idle : List Char
  iowait : List Char
  irq : List Char
  softirq : List Char
  steal : List Char
  guest : List Char
  guest_nice : List Char
deriving DecidableEq, Repr

/-- Greedy match of the ten `\x20*(?P<f>[0-9]*)` groups of `PROC_STAT_REGEX`
against the input following `cpu[0-9]*`. -/
def captureCpu (s : List Char) : CpuCaptures :=
  let (user, s1) := nextField s
  let (nice, s2) := nextField s1
  let (system, s3) := nextField s2
  let (idle, s4) := nextField s3
  let (iowait, s5) := nextField s4
  let (irq, s6) := nextField s5
  let (softirq, s7) := nextField s6
  let (steal, s8) := nextField s7
  let (guest, s9) := nextField s8
  let (guest_nice, _) := nextField s9
  ⟨user, nice, system, idle, iowait, irq, softirq, steal, guest, guest_nice⟩

/-- `captures.iter().skip(1)` of `PROC_STAT_REGEX`: the ten named groups in
group order. -/
def capturesList (c : CpuCaptures) : List (List Char) :=
  [c.user, c.nice, c.system, c.idle, c.iowait, c.irq, c.softirq, c.steal,
    c.guest, c.guest_nice]

/-- Embedding of `parse_proc_stat_line` (`src/utils/cpu.rs:99-121`).
`idle_time` requires the `idle` and `iowait` captures to parse (each `?`
propagates); the total is `captures.iter().skip(1).flat_map(parse).sum()`,
where `flat_map` over `Result` keeps only the `Ok` values — captures that
fail to parse are silently dropped from the sum. -/
def parse_proc_stat_line (line : List Char) : Except String (Nat × Nat) :=
  match afterCpu line with
  | none => Except.error "using regex to parse /proc/stat failed"
  | some rest =>
    let caps := captureCpu (rest.dropWhile Char.isDigit)
    match parseU64 caps.idle with
    | none => Except.error "unable to get idle time"
    | some idle =>
      match parseU64 caps.iowait with
      | none => Except.error "unable to get iowait time"
      | some iowait =>
        Except.ok (idle + iowait, ((capturesList caps).filterMap parseU64).sum)

/-- `str::split('\n')` on the raw file contents. -/
def splitNl : List Char → List (List Char)
  | [] => [[]]
  | c :: t =>
    match splitNl t with
    | [] => [[c]]
    | h :: r => if c = '\n' then [] :: h :: r else (c :: h) :: r

/-- `x.starts_with("cpu")` used by the `retain` in `get_proc_stat`. -/
def startsWithCpu : List Char → Bool
  | 'c' :: 'p' :: 'u' :: _ => true
  | _ => false

/-- Outcome of `get_proc_stat`: the selected line, a `bail!` error, or a
Rust panic caused by an out-of-bounds slice index. -/
inductive ProcStatResult where
  | ok (line : List Char)
  | err (msg : String)
  | panic
deriving DecidableEq, Repr

/-- Embedding of `get_proc_stat` (`src/utils/cpu.rs:123-137`), with the
already-read `/proc/stat` contents as input. Line 0 is the aggregate and
core `c` maps to line `c + 1`; the guard `bail!`s only when the selected
line number strictly exceeds the number of `cpu`-prefixed lines, and the
subsequent `proc_stat[selected_line_number]` index panics when it equals
that number. -/
def get_proc_stat (core : Option Nat) (contents : List Char) : ProcStatResult :=
  let selected_line_number := match core with | none => 0 | some x => x + 1
  let proc_stat := (splitNl contents).filter startsWithCpu
  if selected_line_number > proc_stat.length then
    ProcStatResult.err "`core` argument greater than amount of cores"
  else
    match proc_stat.get? selected_line_number with
    | some l => ProcStatResult.ok l
    | none => ProcStatResult.panic

/-- Outcome of `get_cpu_usage`: a `(idle_time, total_time)` pair, an error,
or the panic inherited from `get_proc_stat`. -/
inductive CpuUsageResult where
  | ok (p : Nat × Nat)
  | err (msg : String)
  | panic
deriving DecidableEq, Repr

/-- Embedding of `get_cpu_usage` (`src/utils/cpu.rs:148-150`):
`parse_proc_stat_line(get_proc_stat(core).await?.as_bytes())`. -/
def get_cpu_usage (core : Option Nat) (contents : List Char) : CpuUsageResult :=
  match get_proc_stat core contents with
  | ProcStatResult.panic => CpuUsageResult.panic
  | ProcStatResult.err m => CpuUsageResult.err m
  | ProcStatResult.ok line =>
    match parse_proc_stat_line line with
    | Except.ok p => CpuUsageResult.ok p
    | Except.error m => CpuUsageResult.err m

/-- `SYS_STAT_FIELDS` (`src/utils/drive.rs:8-26`): the 17 field names of a
`/sys/block/<dev>/stat` line, in file order. -/
def SYS_STAT_FIELDS : List String :=
  ["read_ios", "read_merges", "read_sectors", "read_ticks",
    "write_ios", "write_merges", "write_sectors", "write_ticks",
    "in_flight", "io_ticks", "time_in_queue",
    "discard_ios", "discard_merges", "discard_sectors", "discard_ticks",
    "flush_ios", "flush_ticks"]

/-- The `n` capture groups of `DRIVE_REGEX` in group order: greedy
`\x20*(?P<f>[0-9]*)` steps from the start of the contents (the regex has no
literal prefix, so the leftmost match begins at position 0 and every group
participates). -/
def captureFields : Nat → List Char → List (List Char)
  | 0, _ => []
  | n + 1, s => (nextField s).1 :: captureFields n (nextField s).2

/-- The field loop of `sys_stat` (`src/utils/drive.rs:45-54`): for each name
in `SYS_STAT_FIELDS` order, parse the corresponding capture with `?`, so the
first failing field aborts with an error and no partial map is returned.
The `HashMap` is modelled as an association list in insertion order. -/
def buildStatMap : List String → List (List Char) →
    Except String (List (String × Nat))
  | [], _ => Except.ok []
  | f :: _, [] => Except.error ("unable to get " ++ f ++ " from stat")
  | f :: fs, c :: cs =>
    match parseU64 c with
    | none => Except.error ("invalid digit found in string for " ++ f)
    | some v => (buildStatMap fs cs).map (fun m => (f, v) :: m)

/-- Embedding of `sys_stat` (`src/utils/drive.rs:35-56`), with the
already-read `/sys/block/<dev>/stat` contents as input. -/
def sys_stat (stat : List Char) : Except String (List (String × Nat)) :=
  buildStatMap SYS_STAT_FIELDS (captureFields 17 stat)

/-- `CPUInfo` (`src/utils/cpu.rs:10-20`). `max_speed` is `f32` in the
source; it is modelled over `ℚ` (exact arithmetic on the decimal values
`lscpu` prints). -/
structure CPUInfo where
  vendor_id : Option String
  model_name : Option String
  architecture : Option String
  logical_cpus : Option Nat
  physical_cpus : Option Nat
  sockets : Option Nat
  virtualization : Option String
  max_speed : Option ℚ
deriving DecidableEq, Repr

/-- Model of `str::parse::<f32>` restricted to the plain decimal forms
`lscpu` emits for `CPU max MHz` (digits, optionally followed by `.` and
digits), idealised over `ℚ`; other forms are rejected. -/
def parseDecimal (s : List Char) : Option ℚ :=
  let intPart := s.takeWhile Char.isDigit
  let rest := s.dropWhile Char.isDigit
  match rest with
  | [] => if intPart = [] then none else some (digitsToNat intPart)
  | '.' :: frac =>
    if frac.all Char.isDigit ∧ ¬(intPart = [] ∧ frac = []) then
      some ((digitsToNat intPart : ℚ) +
        (digitsToNat frac : ℚ) / (10 ^ frac.length))
    else none
  | _ => none

/-- Embedding of `cpu_info` (`src/utils/cpu.rs:41-80`). The parsed `lscpu`
key/value output (a JSON object of string values) is the input, as a lookup
function where `none` covers both an absent key and a non-string value
(serde indexing an absent key yields `Null`, whose `as_str()` is `None`).
After a successful `lscpu` run the function itself never fails: every field
is built with `map`/`and_then`/`.ok()`, defaulting to `None`. -/
def cpu_info (kv : String → Option String) : Except String CPUInfo :=
  let vendor_id := kv "Vendor ID"
  let model_name := kv "Model name"
  let architecture := kv "Architecture"
  let logical_cpus := (kv "CPU(s)").bind (fun x => parseU64 x.data)
  let sockets := (kv "Socket(s)").bind (fun x => parseU64 x.data)
  let physical_cpus := (kv "Core(s) per socket").bind
    (fun x => (parseU64 x.data).map (fun y => y * sockets.getD 1))
  let virtualization := kv "Virtualization"
  let max_speed := ((kv "CPU max MHz").bind
    (fun x => parseDecimal x.data)).map (fun y => y * 1000000)
  Except.ok
    { vendor_id := vendor_id
      model_name := model_name
      architecture := architecture
      logical_cpus := logical_cpus
      physical_cpus := physical_cpus
      sockets := sockets
      virtualization := virtualization
      max_speed := max_speed }

/-- Embedding of `get_cpu_freq` (`src/utils/cpu.rs:88-97`), with the
already-read `scaling_cur_freq` contents as input: strip every newline,
parse as `u64` (kHz) and multiply by 1000 (Hz). -/
def get_cpu_freq (contents : List Char) : Except String Nat :=
  match parseU64 (contents.filter (fun c => c ≠ '\n')) with
  | some x => Except.ok (x * 1000)
  | none => Except.error "can't parse scaling_cur_freq to usize"

/-- The four control signals the applications page dispatches
(`src/ui/pages/applications.rs`): SIGTERM ("End"), SIGSTOP ("Halt"),
SIGKILL ("Kill"), SIGCONT ("Continue"). These are the only values the
page's entry points pass, and the only ones its `get_action_*` tables
support (any other signal hits `panic!("Unsupported signal")`). -/
inductive Signal where
  | SIGTERM
  | SIGSTOP
  | SIGKILL
  | SIGCONT
deriving DecidableEq, Repr

/-- `get_action_name` (`src/ui/pages/applications.rs:510-518`). -/
def get_action_name : Signal → String
  | Signal.SIGTERM => "End"
  | Signal.SIGSTOP => "Halt"
  | Signal.SIGKILL => "Kill"
  | Signal.SIGCONT => "Continue"

/-- `get_action_warning` (`src/ui/pages/applications.rs:520-528`). -/
def get_action_warning : Signal → String
  | Signal.SIGTERM => "Unsaved work might be lost."
  | Signal.SIGSTOP => "Halting an application can come with serious risks such as losing data and security implications. Use with caution."
  | Signal.SIGKILL => "Killing an application can come with serious risks such as losing data and security implications. Use with caution."
  | Signal.SIGCONT => ""

/-- `get_action_description` (`src/ui/pages/applications.rs:530-538`). -/
def get_action_description : Signal → String
  | Signal.SIGTERM => "End application"
  | Signal.SIGSTOP => "Halt application"
  | Signal.SIGKILL => "Kill application"
  | Signal.SIGCONT => "Continue application"

/-- `get_action_success` (`src/ui/pages/applications.rs:540-548`). -/
def get_action_success : Signal → String
  | Signal.SIGTERM => "Successfully ended"
  | Signal.SIGSTOP => "Successfully halted"
  | Signal.SIGKILL => "Successfully killed"
  | Signal.SIGCONT => "Successfully continued"

/-- `get_action_failure` (`src/ui/pages/applications.rs:550-558`). -/
def get_action_failure : Signal → String
  | Signal.SIGTERM => "There was a problem ending a process"
  | Signal.SIGSTOP => "There was a problem halting a process"
  | Signal.SIGKILL => "There was a problem killing a process"
  | Signal.SIGCONT => "There was a problem continuing a process"

/-- `get_action_failure_multiple` (`src/ui/pages/applications.rs:560-568`). -/
def get_action_failure_multiple : Signal → String
  | Signal.SIGTERM => "There were problems ending"
  | Signal.SIGSTOP => "There were problems halting"
  | Signal.SIGKILL => "There were problems killing"
  | Signal.SIGCONT => "There were problems continuing"

/-- Modelled from the spec: `App::signal` lives in `utils/processes.rs`,
which is not among the provided sources; per the spec it sends the signal
independently to every owned process and returns a per-process
success/failure outcome list (`Vec<Result<..>>`). That outcome list is
taken as an input here. `res.iter().flatten().count()` counts the `Ok`
entries. -/
def countSuccessful (res : List (Except Unit Unit)) : Nat :=
  (res.filterMap Except.toOption).length

/-- Embedding of `execute_process_action`
(`src/ui/pages/applications.rs:446-463`) with the per-process dispatch
outcomes of `app.signal(signal)` as input; returns the toast message text
(`i18n`/`i18n_f` are identity on the template with `{}` substituted in
order). -/
def execute_process_action (display_name : String)
    (res : List (Except Unit Unit)) (signal : Signal) : String :=
  let processes_tried := res.length
  let processes_successful := countSuccessful res
  let processes_unsuccessful := processes_tried - processes_successful
  match processes_unsuccessful with
  | 0 => get_action_success signal ++ " " ++ display_name
  | 1 => get_action_failure signal
  | _ => get_action_failure_multiple signal ++ " " ++
      toString processes_unsuccessful ++ " processes"

/-- What `execute_process_action_dialog` does when called: either the signal
is dispatched immediately (producing a toast), or a confirmation dialog with
the given heading and body is shown and dispatch is deferred to the
response handler. -/
inductive DialogAction where
  | dispatched (toast : String)
  | confirmation (heading : String) (body : String)
deriving DecidableEq, Repr

/-- Embedding of `execute_process_action_dialog`
(`src/ui/pages/applications.rs:465-501`): SIGCONT short-circuits to
`execute_process_action` with no dialog; every other signal builds the
confirmation dialog (heading `"{} {}?"` of action name and app name, body
the action warning) and returns without dispatching. -/
def execute_process_action_dialog (display_name : String)
    (res : List (Except Unit Unit)) (signal : Signal) : DialogAction :=
  if signal = Signal.SIGCONT then
    DialogAction.dispatched (execute_process_action display_name res signal)
  else
    DialogAction.confirmation
      (get_action_name signal ++ " " ++ display_name ++ "?")
      (get_action_warning signal)

/-- The dialog's `connect_response` handler
(`src/ui/pages/applications.rs:491-498`): only the response id `"yes"`
dispatches (returning the toast); any other response (including the default
and close response `"no"`) does nothing. -/
def dialog_response (display_name : String) (res : List (Except Unit Unit))
    (signal : Signal) (response : String) : Option String :=
  if response = "yes" then
    some (execute_process_action display_name res signal)
  else none

/-- Modelled from the spec: `SimpleItem` is declared in the missing
`utils/processes.rs`; per the spec it is the external-facing
`ApplicationSummary` projection — identity (an optional id, `none` being
the system-processes bucket), display metadata, aggregate memory, CPU-time
ratio and process count. Only the fields used by
`src/ui/pages/applications.rs` appear. -/
structure SimpleItem where
  id : Option String
  display_name : String
  description : Option String
  memory_usage : Nat
  cpu_time_ratio : ℚ
  processes_amount : Nat
deriving DecidableEq, Repr

/-- `Iterator::position`: index of the first element satisfying `p`. -/
def position (p : α → Bool) : List α → Option Nat
  | [] => none
  | a :: l => if p a then some 0 else (position p l).map (fun i => i + 1)

/-- Embedding of the selection logic of `refresh_apps_list`
(`src/ui/pages/applications.rs:383-436`): the id of the selected item is
captured before the refresh, the published collection is replaced by the
new item list, and the position of the first new item with the same id is
re-selected. Modelled from the spec for the widget part: replacing the
published collection clears the selection, so when no matching id is found
(or nothing was selected) the selection becomes none. Returns the
post-refresh selected item. -/
def refresh_apps_list (selected_item : Option (Option String))
    (new_items : List SimpleItem) : Option SimpleItem :=
  match selected_item with
  | none => none
  | some sel_id =>
    match position (fun item => decide (item.id = sel_id)) new_items with
    | some index => new_items.get? index
    | none => none

/-! Helper lemmas -/

theorem sum_filterMap_cons (f : α → Option Nat) (a : α) (l : List α) :
    ((a :: l).filterMap f).sum = (f a).getD 0 + (l.filterMap f).sum := by
  cases h : f a <;> simp [List.filterMap_cons, h]

theorem position_eq_none_iff (p : α → Bool) (l : List α) :
    position p l = none ↔ ∀ a ∈ l, p a = false := by
  induction l with
  | nil => simp [position]
  | cons a l ih => by_cases h : p a <;> simp [position, h, ih]

theorem position_some (p : α → Bool) {l : List α} {i : Nat}
    (h : position p l = some i) : ∃ a, l.get? i = some a ∧ p a = true := by
  induction l generalizing i with
  | nil => simp [position] at h
  | cons a l ih =>
    by_cases ha : p a
    · simp [position, ha] at h
      exact h ▸ ⟨a, rfl, ha⟩
    · simp [position, ha] at h
      obtain ⟨j, hj, hji⟩ := h
      obtain ⟨b, hb, hpb⟩ := ih hj
      exact ⟨b, by simpa [← hji] using hb, hpb⟩

theorem captureFields_length (n : Nat) (s : List Char) :
    (captureFields n s).length = n := by
  induction n generalizing s with
  | zero => simp [captureFields]
  | succ n ih => simp [captureFields, ih]

theorem exists_map_ok (x : Except ε α) (g : α → β) :
    (∃ m, x.map g = Except.ok m) ↔ ∃ m, x = Except.ok m := by
  cases x <;> simp [Except.map]

theorem buildStatMap_ok_iff (fs : List String) (cs : List (List Char)) :
    (∃ m, buildStatMap fs cs = Except.ok m) ↔
      fs.length ≤ cs.length ∧
        ∀ c ∈ cs.take fs.length, (parseU64 c).isSome := by
  induction fs generalizing cs with
  | nil => simp [buildStatMap]
  | cons f fs ih =>
    cases cs with
    | nil => simp [buildStatMap]
    | cons c cs =>
      cases h : parseU64 c with
      | none => simp [buildStatMap, h]
      | some v =>
        simp only [buildStatMap, h, exists_map_ok, ih, List.length_cons,
          List.take_succ_cons, List.mem_cons]
        constructor
        · rintro ⟨hlen, hall⟩
          refine ⟨by omega, ?_⟩
          rintro d (rfl | hd)
          · simp [h]
          · exact hall d hd
        · rintro ⟨hlen, hall⟩
          exact ⟨by omega, fun d hd => hall d (Or.inr hd)⟩

theorem buildStatMap_eq_ok (fs : List String) (cs : List (List Char))
    (hlen : fs.length ≤ cs.length)
    (h : ∀ c ∈ cs.take fs.length, (parseU64 c).isSome) :
    buildStatMap fs cs =
      Except.ok (fs.zip (cs.map (fun c => (parseU64 c).getD 0))) := by
  induction fs generalizing cs with
  | nil => simp [buildStatMap]
  | cons f fs ih =>
    cases cs with
    | nil => simp at hlen
    | cons c cs =>
      have hc : (parseU64 c).isSome := h c (by simp)
      obtain ⟨v, hv⟩ := Option.isSome_iff_exists.mp hc
      have hrec := ih cs (by simpa using hlen)
        (fun d hd => h d (by simp only [List.length_cons,
          List.take_succ_cons, List.mem_cons]; exact Or.inr hd))
      simp [buildStatMap, hv, hrec, Except.map]

/-! Claim theorems -/

/-- C1: the claim says a `/proc/stat` cpu line with any missing or
non-numeric counter field makes `parse_proc_stat_line` return an error.
The code instead sums the counters with `flat_map` over `Result`, which
silently discards parse failures: on the line `cpu 1 2 3 4 5 6 7 8` the
`guest` and `guest_nice` captures are empty, yet the function returns
`Ok((9, 36))` with the two fields silently omitted from the total, and the
"unable to sum CPU times" error it constructs is discarded unreachably. -/
theorem claim_C1 :
    parse_proc_stat_line ("cpu 1 2 3 4 5 6 7 8".data) =
      Except.ok (9, 36) := by rfl

/-- C2: the claim says `get_proc_stat` fails explicitly (never by an
out-of-bounds index) for every core index at or past the last available
`cpu` line. With two `cpu` lines (aggregate plus `cpu0`), core index 1
passes the `selected_line_number > proc_stat.len()` guard and the
subsequent `proc_stat[2]` index panics; only core indices from 2 on reach
the explicit `bail!` error. -/
theorem claim_C2 :
    get_proc_stat (some 1)
        ("cpu  1 1 1 1 1 1 1 1 1 1\ncpu0 1 1 1 1 1 1 1 1 1 1\nintr 0".data) =
      ProcStatResult.panic ∧
    get_proc_stat (some 2)
        ("cpu  1 1 1 1 1 1 1 1 1 1\ncpu0 1 1 1 1 1 1 1 1 1 1\nintr 0".data) =
      ProcStatResult.err "`core` argument greater than amount of cores" :=
  ⟨by rfl, by rfl⟩

/-- C3: on a cpu line where all ten counter fields are numeric,
`parse_proc_stat_line` returns `(idle + iowait, sum of all ten fields)`,
and `get_cpu_usage` forwards exactly this pair for whichever line
`get_proc_stat` selects. -/
theorem claim_C3 (line rest : List Char) (hcpu : afterCpu line = some rest)
    (u n s i w q sq st g gn : Nat)
    (hu : parseU64 (captureCpu (rest.dropWhile Char.isDigit)).user = some u)
    (hn : parseU64 (captureCpu (rest.dropWhile Char.isDigit)).nice = some n)
    (hs : parseU64 (captureCpu (rest.dropWhile Char.isDigit)).system = some s)
    (hi : parseU64 (captureCpu (rest.dropWhile Char.isDigit)).idle = some i)
    (hw : parseU64 (captureCpu (rest.dropWhile Char.isDigit)).iowait = some w)
    (hq : parseU64 (captureCpu (rest.dropWhile Char.isDigit)).irq = some q)
    (hsq : parseU64 (captureCpu (rest.dropWhile Char.isDigit)).softirq = some sq)
    (hst : parseU64 (captureCpu (rest.dropWhile Char.isDigit)).steal = some st)
    (hg : parseU64 (captureCpu (rest.dropWhile Char.isDigit)).guest = some g)
    (hgn : parseU64 (captureCpu (rest.dropWhile Char.isDigit)).guest_nice = some gn) :
    parse_proc_stat_line line =
      Except.ok (i + w, u + n + s + i + w + q + sq + st + g + gn) ∧
    ∀ core contents, get_proc_stat core contents = ProcStatResult.ok line →
      get_cpu_usage core contents =
        CpuUsageResult.ok (i + w, u + n + s + i + w + q + sq + st + g + gn) := by
  have h1 : parse_proc_stat_line line =
      Except.ok (i + w, u + n + s + i + w + q + sq + st + g + gn) := by
    unfold parse_proc_stat_line
    rw [hcpu]
    simp only [capturesList, sum_filterMap_cons, List.filterMap_nil,
      List.sum_nil, hu, hn, hs, hi, hw, hq, hsq, hst, hg, hgn,
      Option.getD_some, Except.ok.injEq, Prod.mk.injEq, true_and]
    omega
  refine ⟨h1, fun core contents hsel => ?_⟩
  unfold get_cpu_usage
  rw [hsel]
  simp [h1]

/-- Witness for C3 at the spec's worked example
(`user=100, system=50, idle=800, iowait=50`, rest 0). -/
theorem claim_C3_witness :
    parse_proc_stat_line ("cpu  100 0 50 800 50 0 0 0 0 0".data) =
      Except.ok (850, 1000) := by
  have h := (claim_C3 ("cpu  100 0 50 800 50 0 0 0 0 0".data)
      ("  100 0 50 800 50 0 0 0 0 0".data) (by rfl)
      100 0 50 800 50 0 0 0 0 0
      (by rfl) (by rfl) (by rfl) (by rfl) (by rfl)
      (by rfl) (by rfl) (by rfl) (by rfl) (by rfl)).1
  exact h

/-- C10: whenever `parse_proc_stat_line` returns `Ok((idle_time,
total_time))`, `idle_time ≤ total_time`: the `idle` and `iowait` captures
must have parsed for the `Ok` to be produced, and every field that parses —
in particular those two — is a summand of the total, while fields that fail
to parse contribute nothing. -/
theorem claim_C10 (line : List Char) (it tot : Nat)
    (h : parse_proc_stat_line line = Except.ok (it, tot)) : it ≤ tot := by
  unfold parse_proc_stat_line at h
  cases hcpu : afterCpu line with
  | none => rw [hcpu] at h; simp at h
  | some rest =>
    rw [hcpu] at h
    simp only [] at h
    cases hi : parseU64 (captureCpu (rest.dropWhile Char.isDigit)).idle with
    | none => rw [hi] at h; simp at h
    | some i =>
      rw [hi] at h
      cases hw : parseU64 (captureCpu (rest.dropWhile Char.isDigit)).iowait with
      | none => rw [hw] at h; simp at h
      | some w =>
        rw [hw] at h
        simp only [Except.ok.injEq, Prod.mk.injEq] at h
        obtain ⟨hit, htot⟩ := h
        subst hit htot
        simp only [capturesList, sum_filterMap_cons, List.filterMap_nil,
          List.sum_nil, hi, hw, Option.getD_some]
        omega

/-- Witness for C10 on a fully numeric line. -/
theorem claim_C10_witness :
    parse_proc_stat_line ("cpu0 1 1 1 1 1 1 1 1 1 1".data) =
      Except.ok (2, 10) ∧ (2 : Nat) ≤ 10 :=
  ⟨by rfl, claim_C10 ("cpu0 1 1 1 1 1 1 1 1 1 1".data) 2 10 (by rfl)⟩

/-- C4: the dispatch notice follows the three-tier policy — zero failed
processes gives the full-success message, exactly one gives the generic
single-failure message (a constant per signal, naming no process), and two
or more gives the message citing the failed-process count. -/
theorem claim_C4 (display_name : String) (res : List (Except Unit Unit))
    (signal : Signal) :
    (res.length - countSuccessful res = 0 →
      execute_process_action display_name res signal =
        get_action_success signal ++ " " ++ display_name) ∧
    (res.length - countSuccessful res = 1 →
      execute_process_action display_name res signal =
        get_action_failure signal) ∧
    (2 ≤ res.length - countSuccessful res →
      execute_process_action display_name res signal =
        get_action_failure_multiple signal ++ " " ++
          toString (res.length - countSuccessful res) ++ " processes") := by
  refine ⟨?_, ?_, ?_⟩ <;> intro h
  · simp only [execute_process_action]
    rw [h]
  · simp only [execute_process_action]
    rw [h]
  · obtain ⟨k, hk⟩ : ∃ k, res.length - countSuccessful res = k + 2 :=
      ⟨res.length - countSuccessful res - 2, by omega⟩
    simp only [execute_process_action]
    rw [hk]
    rfl

/-- Witness for C4 at the spec's scenario: dispatching to 3 processes with
exactly 1 failure yields the single-failure message, with exactly 2
failures the count-citing message. -/
theorem claim_C4_witness :
    execute_process_action "Firefox"
        [Except.ok (), Except.ok (), Except.error ()] Signal.SIGTERM =
      "There was a problem ending a process" ∧
    execute_process_action "Firefox"
        [Except.ok (), Except.error (), Except.error ()] Signal.SIGTERM =
      "There were problems ending 2 processes" := by
  constructor
  · exact ((claim_C4 "Firefox"
      [Except.ok (), Except.ok (), Except.error ()] Signal.SIGTERM).2.1
      (by decide)).trans (by decide)
  · exact ((claim_C4 "Firefox"
      [Except.ok (), Except.error (), Except.error ()] Signal.SIGTERM).2.2
      (by decide)).trans (by decide)

/-- C5: after a refresh, if some item in the new result set carries the
previously selected identifier, the post-refresh selection is an item with
that identifier; if no item does, the selection becomes none. -/
theorem claim_C5 (sel_id : Option String) (items : List SimpleItem) :
    ((∃ it ∈ items, it.id = sel_id) →
      ∃ it, refresh_apps_list (some sel_id) items = some it ∧
        it.id = sel_id) ∧
    ((∀ it ∈ items, it.id ≠ sel_id) →
      refresh_apps_list (some sel_id) items = none) := by
  constructor
  · rintro ⟨a, ha, hid⟩
    simp only [refresh_apps_list]
    cases hp : position (fun item => decide (item.id = sel_id)) items with
    | none =>
      exfalso
      have := (position_eq_none_iff _ _).mp hp a ha
      simp [hid] at this
    | some i =>
      obtain ⟨b, hb, hpb⟩ := position_some _ hp
      exact ⟨b, hb, by simpa using hpb⟩
  · intro h
    simp only [refresh_apps_list]
    have hp : position (fun item => decide (item.id = sel_id)) items = none :=
      (position_eq_none_iff _ _).mpr (fun a ha => by simpa using h a ha)
    rw [hp]

/-- Witness for C5: a selection is preserved when its id survives the
refresh and cleared when it does not. -/
theorem claim_C5_witness :
    (∃ it, refresh_apps_list (some (some "firefox"))
        [⟨some "firefox", "Firefox", none, 0, 0, 1⟩] = some it ∧
        it.id = some "firefox") ∧
    refresh_apps_list (some (some "gone"))
        [⟨some "firefox", "Firefox", none, 0, 0, 1⟩] = none := by
  constructor
  · exact (claim_C5 (some "firefox")
      [⟨some "firefox", "Firefox", none, 0, 0, 1⟩]).1
      ⟨⟨some "firefox", "Firefox", none, 0, 0, 1⟩, by simp, rfl⟩
  · exact (claim_C5 (some "gone")
      [⟨some "firefox", "Firefox", none, 0, 0, 1⟩]).2 (by decide)

/-- C6: `sys_stat` succeeds exactly when all 17 captured fields parse, and
then the returned map binds exactly the 17 `SYS_STAT_FIELDS` keys, in fixed
field order, to the integers parsed from the line — no key absent, no data
lost; any failing field yields an error and no partial map. -/
theorem claim_C6 (stat : List Char) :
    ((∃ m, sys_stat stat = Except.ok m) ↔
      ∀ c ∈ captureFields 17 stat, (parseU64 c).isSome) ∧
    ∀ m, sys_stat stat = Except.ok m →
      m = SYS_STAT_FIELDS.zip
          ((captureFields 17 stat).map (fun c => (parseU64 c).getD 0)) ∧
      m.map Prod.fst = SYS_STAT_FIELDS ∧ m.length = 17 := by
  have hclen : (captureFields 17 stat).length = 17 :=
    captureFields_length 17 stat
  have hflen : SYS_STAT_FIELDS.length = 17 := rfl
  have htake : (captureFields 17 stat).take 17 = captureFields 17 stat :=
    List.take_of_length_le (by rw [hclen])
  constructor
  · unfold sys_stat
    rw [buildStatMap_ok_iff, hflen, hclen, htake]
    simp
  · intro m hm
    have hex : ∃ m', buildStatMap SYS_STAT_FIELDS
        (captureFields 17 stat) = Except.ok m' := ⟨m, hm⟩
    obtain ⟨hlen2, hall2⟩ := (buildStatMap_ok_iff _ _).mp hex
    have heq := buildStatMap_eq_ok SYS_STAT_FIELDS
      (captureFields 17 stat) hlen2 hall2
    unfold sys_stat at hm
    rw [heq, Except.ok.injEq] at hm
    subst hm
    refine ⟨rfl, ?_, ?_⟩
    · exact List.map_fst_zip _ _ (by simp [hclen, hflen])
    · simp [List.length_zip, hclen, hflen]

/-- Witness for C6 on a well-formed 17-field line. -/
theorem claim_C6_witness :
    ∃ m, sys_stat ("0 1 2 3 4 5 6 7 8 9 10 11 12 13 14 15 16\n".data) =
        Except.ok m ∧ m.map Prod.fst = SYS_STAT_FIELDS := by
  obtain ⟨m, hm⟩ :=
    (claim_C6 ("0 1 2 3 4 5 6 7 8 9 10 11 12 13 14 15 16\n".data)).1.mpr
      (by decide)
  exact ⟨m, hm,
    ((claim_C6 ("0 1 2 3 4 5 6 7 8 9 10 11 12 13 14 15 16\n".data)).2
      m hm).2.1⟩

/-- C7: after a successful probe run, `cpu_info` always returns `Ok`, and
each `CPUInfo` field is independently `none` when its key is absent or its
value fails to parse; no individual missing field fails the whole read. -/
theorem claim_C7 (kv : String → Option String) :
    ∃ info, cpu_info kv = Except.ok info ∧
      (kv "Vendor ID" = none → info.vendor_id = none) ∧
      (kv "Model name" = none → info.model_name = none) ∧
      (kv "Architecture" = none → info.architecture = none) ∧
      ((kv "CPU(s)").bind (fun x => parseU64 x.data) = none →
        info.logical_cpus = none) ∧
      ((kv "Core(s) per socket").bind (fun x => parseU64 x.data) = none →
        info.physical_cpus = none) ∧
      ((kv "Socket(s)").bind (fun x => parseU64 x.data) = none →
        info.sockets = none) ∧
      (kv "Virtualization" = none → info.virtualization = none) ∧
      ((kv "CPU max MHz").bind (fun x => parseDecimal x.data) = none →
        info.max_speed = none) := by
  refine ⟨_, rfl, ?_, ?_, ?_, ?_, ?_, ?_, ?_, ?_⟩
  · intro h; simp [cpu_info, h]
  · intro h; simp [cpu_info, h]
  · intro h; simp [cpu_info, h]
  · intro h; simp [cpu_info, h]
  · intro h
    cases hk : kv "Core(s) per socket" with
    | none => simp [cpu_info, hk]
    | some x =>
      rw [hk] at h
      simp only [Option.some_bind] at h
      simp [cpu_info, hk, h]
  · intro h; simp [cpu_info, h]
  · intro h; simp [cpu_info, h]
  · intro h; simp [cpu_info, h]

/-- Witness for C7 with an empty probe output: still `Ok`, all-`none`. -/
theorem claim_C7_witness :
    ∃ info, cpu_info (fun _ => none) = Except.ok info ∧
      info.logical_cpus = none ∧ info.max_speed = none := by
  obtain ⟨info, hok, _, _, _, hl, _, _, _, hm⟩ := claim_C7 (fun _ => none)
  exact ⟨info, hok, hl (by rfl), hm (by rfl)⟩

/-- C9: `get_cpu_freq` turns a parsed kHz value `k` into exactly `k * 1000`
Hz, and `cpu_info` turns a parsed `CPU max MHz` value `m` into a
`max_speed` of exactly `m * 1000000` Hz. -/
theorem claim_C9 :
    (∀ contents k,
      parseU64 (contents.filter (fun c => c ≠ '\n')) = some k →
      get_cpu_freq contents = Except.ok (k * 1000)) ∧
    (∀ (kv : String → Option String) (s : String) (m : ℚ),
      kv "CPU max MHz" = some s → parseDecimal s.data = some m →
      ∃ info, cpu_info kv = Except.ok info ∧
        info.max_speed = some (m * 1000000)) := by
  constructor
  · intro contents k h
    unfold get_cpu_freq
    rw [h]
  · intro kv s m hk hp
    refine ⟨_, rfl, ?_⟩
    simp [cpu_info, hk, hp]

/-- Witness for C9: 3500000 kHz becomes 3500000000 Hz, and a probed
`CPU max MHz` of 3500 becomes 3500000000 Hz. -/
theorem claim_C9_witness :
    get_cpu_freq ("3500000\n".data) = Except.ok 3500000000 ∧
    ∃ info,
      cpu_info (fun key =>
        if key = "CPU max MHz" then some "3500" else none) =
        Except.ok info ∧ info.max_speed = some 3500000000 := by
  constructor
  · exact claim_C9.1 ("3500000\n".data) 3500000 (by rfl)
  · obtain ⟨info, hok, hms⟩ := claim_C9.2
      (fun key => if key = "CPU max MHz" then some "3500" else none)
      "3500" 3500 (by rfl) (by decide)
    refine ⟨info, hok, ?_⟩
    rw [hms]
    norm_num

/-- C8: SIGCONT is dispatched immediately with no confirmation step, while
every other supported signal only opens the confirmation dialog, whose
handler dispatches exactly on the affirmative `"yes"` response;
`execute_process_action` is the dispatch entry point used in both paths and
is itself independent of any confirmation. -/
theorem claim_C8 (display_name : String) (res : List (Except Unit Unit))
    (signal : Signal) :
    (execute_process_action_dialog display_name res Signal.SIGCONT =
      DialogAction.dispatched
        (execute_process_action display_name res Signal.SIGCONT)) ∧
    (signal ≠ Signal.SIGCONT →
      execute_process_action_dialog display_name res signal =
        DialogAction.confirmation
          (get_action_name signal ++ " " ++ display_name ++ "?")
          (get_action_warning signal) ∧
      dialog_response display_name res signal "yes" =
        some (execute_process_action display_name res signal) ∧
      ∀ r, r ≠ "yes" → dialog_response display_name res signal r = none) := by
  refine ⟨?_, fun h => ⟨?_, ?_, fun r hr => ?_⟩⟩
  · simp [execute_process_action_dialog]
  · simp [execute_process_action_dialog, h]
  · simp [dialog_response]
  · simp [dialog_response, hr]

/-- Witness for C8: SIGCONT dispatches without a dialog; a SIGKILL dialog
answered `"no"` dispatches nothing. -/
theorem claim_C8_witness :
    execute_process_action_dialog "Firefox" [] Signal.SIGCONT =
      DialogAction.dispatched
        (execute_process_action "Firefox" [] Signal.SIGCONT) ∧
    dialog_response "Firefox" [] Signal.SIGKILL "no" = none := by
  refine ⟨(claim_C8 "Firefox" [] Signal.SIGKILL).1, ?_⟩
  exact ((claim_C8 "Firefox" [] Signal.SIGKILL).2
    (by decide)).2.2 "no" (by decide)

end Resources
